import Mathlib

/-!
Verification of the "Susan – Project Insight" / "Agile Leader Dashboard"
repository against its natural-language specification.

The source is a small React/TypeScript UI. Its logic consists of:
* `calcDefinedPct` — clamp a ratio to [0,1], scale to a percentage, round
  (JavaScript `Math.round`, i.e. round half toward positive infinity);
* `statusColor` — a total string-to-CSS-class lookup;
* static literal tables (`teams`, `titleMap`, the `InsightKey` union);
* the `SusanChat` widget's `send` handler and its delayed assistant-reply
  callback, acting on a local message history.

Numbers are embedded as exact rationals (the spec speaks of real ratios);
the chat widget is embedded as an explicit state record, with the
`setTimeout` callback modelled as a pending-reply queue drained by
`fireReply`.
-/

namespace Susan

/-- JavaScript `Math.round`: round half toward positive infinity,
`Math.round x = ⌊x + 1/2⌋`. -/
def jsRound (x : ℚ) : ℤ := ⌊x + 1/2⌋

/-- `Math.max(0, Math.min(1, r))` from the source: clamp to [0,1]. -/
def clamp01 (r : ℚ) : ℚ := max 0 (min 1 r)

/-- Source: `const calcDefinedPct = (ratio) => Math.round(Math.max(0, Math.min(1, ratio)) * 100)`. -/
def calcDefinedPct (r : ℚ) : ℤ := jsRound (clamp01 r * 100)

/-- One row of the `teams` table of the Agile Leader Dashboard. -/
structure Team where
  name : String
  status : String
  prev : String
  backlog : Nat
deriving DecidableEq, Repr

/-- Source: the `teams` literal array (identical in `tw3.js` and the
TypeScript dashboard). -/
def teams : List Team :=
  [ { name := "AAA2(Design&Platform)", status := "Red", prev := "Red", backlog := 18 },
    { name := "DelEng&Support(DesignPlatform)", status := "Red", prev := "Red", backlog := 22 },
    { name := "OrangeSquad(DesignPlatform)", status := "Yellow", prev := "Green", backlog := 9 },
    { name := "Solution(Design&Dev)", status := "Green", prev := "Green", backlog := 54 },
    { name := "SupportTeam(DesignPlatform)", status := "Red", prev := "Orange", backlog := 8 },
    { name := "SystemTeam(DesignPlatform)", status := "Red", prev := "Red", backlog := 12 } ]

/-- The three-valued status enumeration of the spec glossary. -/
def statusEnum : List String := ["Red", "Yellow", "Green"]

/-- Source: `const statusColor = (s) => s === "Green" ? "bg-emerald-500" : s === "Yellow" ? "bg-yellow-400" : "bg-rose-500"`. -/
def statusColor (s : String) : String :=
  if s = "Green" then "bg-emerald-500"
  else if s = "Yellow" then "bg-yellow-400"
  else "bg-rose-500"

/-- Source: `type InsightKey = "recommendation" | "risk" | "achievement" | "ai" | "teamPlanning" | "healthPerformance"`. -/
inductive InsightKey
  | recommendation
  | risk
  | achievement
  | ai
  | teamPlanning
  | healthPerformance
deriving DecidableEq, Repr

/-- All six insight keys, in source order. -/
def allInsightKeys : List InsightKey :=
  [ .recommendation, .risk, .achievement, .ai, .teamPlanning, .healthPerformance ]

/-- Source: the `titleMap` literal of `ExecutiveSummary` (the titles use
U+2011 non-breaking hyphens, copied verbatim). -/
def titleMap : InsightKey → String
  | .recommendation => "Executive Summary: Insights and Recommendations"
  | .risk => "Executive Summary: Risks and Mitigations"
  | .achievement => "Executive Summary: Highlights and Opportunities"
  | .ai => "Executive Summary: AI‑Generated Insights"
  | .teamPlanning => "Executive Summary: Team Planning"
  | .healthPerformance => "Executive Summary: Health Performance"

/-- Executable model of JavaScript `String.prototype.trim`: drop leading
and trailing whitespace characters. -/
def jsTrim (s : String) : String :=
  String.mk (((s.data.dropWhile Char.isWhitespace).reverse.dropWhile Char.isWhitespace).reverse)

/-- Chat message role, `"user" | "assistant"` in the source. -/
inductive Role
  | user
  | assistant
deriving DecidableEq, Repr

/-- One chat message: `{ role, content }` in the source. -/
structure ChatMsg where
  role : Role
  content : String
deriving DecidableEq, Repr

/-- The canned assistant reply of the `setTimeout` callback:
`` `Here's a draft based on: "${text}". (demo)` ``. -/
def assistantReply (text : String) : String :=
  "Here\x27s a draft based on: \"" ++ text ++ "\". (demo)"

/-- The initial greeting message content of the `SusanChat` history. -/
def greeting : String :=
  "Hi, I\x27m Susan. How can I help with insights or summaries?"

/-- Local state of the `SusanChat` widget: the input field `msg`, the
`loading` flag, the message `history`, and the queue of texts whose
simulated assistant replies have been scheduled by `setTimeout` but have
not fired yet. -/
structure ChatState where
  msg : String
  loading : Bool
  history : List ChatMsg
  pending : List String
deriving DecidableEq, Repr

/-- Initial state of the widget: empty input, not loading, history holding
exactly the assistant greeting, nothing scheduled. -/
def initChatState : ChatState :=
  { msg := ""
    loading := false
    history := [{ role := Role.assistant, content := greeting }]
    pending := [] }

/-- Typing into the input field (`setMsg(e.target.value)`). -/
def setMsgInput (t : String) (s : ChatState) : ChatState :=
  { s with msg := t }

/-- The synchronous part of the source's `send`: trim the input; if the
trimmed text is empty return with no change at all; otherwise clear the
input, append the user message to the history, set `loading`, and schedule
the simulated reply (enqueue the text for the timeout callback). -/
def send (s : ChatState) : ChatState :=
  let text := jsTrim s.msg
  if text = "" then s
  else
    { msg := ""
      loading := true
      history := s.history ++ [{ role := Role.user, content := text }]
      pending := s.pending ++ [text] }

/-- The `setTimeout` callback firing for the oldest scheduled reply:
append the canned assistant message and clear `loading`. With no reply
scheduled nothing happens. -/
def fireReply (s : ChatState) : ChatState :=
  match s.pending with
  | [] => s
  | text :: rest =>
      { msg := s.msg
        loading := false
        history := s.history ++ [{ role := Role.assistant, content := assistantReply text }]
        pending := rest }

/-- States of the chat widget reachable from the initial state by typing,
submitting, and reply callbacks. -/
inductive Reachable : ChatState → Prop
  | init : Reachable initChatState
  | typing (t : String) {s : ChatState} : Reachable s → Reachable (setMsgInput t s)
  | dosend {s : ChatState} : Reachable s → Reachable (send s)
  | reply {s : ChatState} : Reachable s → Reachable (fireReply s)

end Susan

open Susan

/-- Helper: the head of a list is unchanged by appending on the right. -/
lemma head?_append_left {α : Type} (l t : List α) (h : l ≠ []) :
    (l ++ t).head? = l.head? := by
  cases l with
  | nil => exact absurd rfl h
  | cons a l => rfl

/-- C1: `calcDefinedPct` is total over the rationals and always returns an
integer in the closed interval [0,100]; it clamps to [0,1], multiplies by
100 and rounds half up, with no error condition for negative or
out-of-range inputs. -/
theorem calcDefinedPct_range (x : ℚ) :
    0 ≤ calcDefinedPct x ∧ calcDefinedPct x ≤ 100 ∧
      calcDefinedPct x = jsRound (clamp01 x * 100) := by
  have h0 : (0 : ℚ) ≤ clamp01 x := le_max_left 0 (min 1 x)
  have h1 : clamp01 x ≤ 1 := max_le (by norm_num) (min_le_left 1 x)
  refine ⟨?_, ?_, rfl⟩
  · have : (0 : ℚ) ≤ clamp01 x * 100 + 1/2 := by nlinarith
    exact Int.le_floor.mpr (by exact_mod_cast this)
  · have hle : clamp01 x * 100 + 1/2 ≤ (201 : ℚ) / 2 := by nlinarith
    have := Int.floor_le_floor hle
    have h2 : ⌊(201 : ℚ) / 2⌋ = 100 := by norm_num
    calc calcDefinedPct x ≤ ⌊(201 : ℚ) / 2⌋ := this
      _ = 100 := h2

/-- C2: `calcDefinedPct` agrees with the reference table of the spec on
each listed input, rounding half up at the .5 boundary (0.345 ↦ 35,
0.995 ↦ 100). -/
theorem calcDefinedPct_table :
    calcDefinedPct 0 = 0 ∧
    calcDefinedPct 1 = 100 ∧
    calcDefinedPct (1.2 : ℚ) = 100 ∧
    calcDefinedPct (-0.2 : ℚ) = 0 ∧
    calcDefinedPct (0.67 : ℚ) = 67 ∧
    calcDefinedPct (0.345 : ℚ) = 35 ∧
    calcDefinedPct (0.995 : ℚ) = 100 := by
  refine ⟨?_, ?_, ?_, ?_, ?_, ?_, ?_⟩ <;>
    · simp only [calcDefinedPct, clamp01, jsRound]
      norm_num

/-- C5 fails as stated: the teams table contains a record (team
"SupportTeam(DesignPlatform)") whose previous status tag is "Orange",
which is outside the Red/Yellow/Green enumeration. -/
theorem teams_orange_prev_counterexample :
    ¬ (∀ t ∈ teams, t.status ∈ statusEnum ∧ t.prev ∈ statusEnum) := by
  intro h
  have := h { name := "SupportTeam(DesignPlatform)", status := "Red",
              prev := "Orange", backlog := 8 } (by decide)
  exact absurd this.2 (by decide)

/-- C5 (amended): every current status tag in the teams table belongs to
{Red, Yellow, Green}; every previous status tag does as well, except the
single record "SupportTeam(DesignPlatform)" whose previous tag is
"Orange". -/
theorem teams_status_tags (t : Team) (ht : t ∈ teams) :
    t.status ∈ statusEnum ∧
      (t.prev ∈ statusEnum ∨
        (t.name = "SupportTeam(DesignPlatform)" ∧ t.prev = "Orange")) := by
  fin_cases ht <;> refine ⟨by decide, ?_⟩ <;> first
    | exact Or.inl (by decide)
    | exact Or.inr (by decide)

/-- Witness for C5 (amended) at the first row of the teams table. -/
theorem teams_status_tags_witness :
    let t : Team := { name := "AAA2(Design&Platform)", status := "Red",
                      prev := "Red", backlog := 18 }
    t.status ∈ statusEnum ∧
      (t.prev ∈ statusEnum ∨
        (t.name = "SupportTeam(DesignPlatform)" ∧ t.prev = "Orange")) :=
  teams_status_tags
    { name := "AAA2(Design&Platform)", status := "Red", prev := "Red", backlog := 18 }
    (by decide)

/-- C6: the insight keys are exactly the six named constructors, pairwise
distinct, and `titleMap` gives each a non-empty title distinct from every
other title. -/
theorem insightKeys_titleMap_exact :
    (∀ k : InsightKey, k ∈ allInsightKeys) ∧
    allInsightKeys.Nodup ∧
    (allInsightKeys.map titleMap).Nodup ∧
    (∀ k : InsightKey, 0 < (titleMap k).length) :=
  ⟨fun k => by cases k <;> decide, by decide, by decide,
   fun k => by cases k <;> decide⟩

/-- C9: `statusColor` is total: "Green" gives the emerald class, "Yellow"
the yellow class, and every other string (for instance "Orange") the rose
class. -/
theorem statusColor_total :
    statusColor "Green" = "bg-emerald-500" ∧
    statusColor "Yellow" = "bg-yellow-400" ∧
    (∀ s : String, s ≠ "Green" → s ≠ "Yellow" → statusColor s = "bg-rose-500") := by
  refine ⟨by decide, by decide, ?_⟩
  intro s h1 h2
  simp [statusColor, h1, h2]

/-- Witness for C9 at the out-of-enumeration tag "Orange". -/
theorem statusColor_total_witness :
    statusColor "Orange" = "bg-rose-500" :=
  statusColor_total.2.2 "Orange" (by decide) (by decide)

/-- C3: submitting an empty or whitespace-only input (trimmed text empty)
leaves the widget state, in particular the message history, exactly
unchanged: the submission is silently ignored. -/
theorem send_blank_ignored (s : ChatState) (h : jsTrim s.msg = "") :
    send s = s ∧ (send s).history = s.history := by
  constructor <;> simp [send, h]

/-- Witness for C3 at a whitespace-only input. -/
theorem send_blank_ignored_witness :
    let s : ChatState := { msg := "  \t ", loading := false,
                           history := [{ role := Role.assistant, content := greeting }],
                           pending := [] }
    send s = s ∧ (send s).history = s.history :=
  send_blank_ignored
    { msg := "  \t ", loading := false,
      history := [{ role := Role.assistant, content := greeting }],
      pending := [] }
    (by decide)

/-- C4: submitting "hello" (with no reply already in flight) synchronously
appends exactly one user message "hello" after the existing history, and
the subsequent reply callback appends exactly one assistant message whose
content contains "hello" verbatim, in that order. -/
theorem send_hello_exchange (s : ChatState) (hmsg : s.msg = "hello")
    (hp : s.pending = []) :
    (send s).history = s.history ++ [{ role := Role.user, content := "hello" }] ∧
    (fireReply (send s)).history =
      s.history ++ [{ role := Role.user, content := "hello" },
                    { role := Role.assistant, content := assistantReply "hello" }] ∧
    (∃ a b : String, assistantReply "hello" = a ++ "hello" ++ b) := by
  have ht : jsTrim "hello" = "hello" := by decide
  refine ⟨?_, ?_, ⟨"Here\x27s a draft based on: \"", "\". (demo)", by decide⟩⟩
  · simp [send, hmsg, ht]
  · simp [send, fireReply, hmsg, hp, ht]

/-- Witness for C4 from the initial widget state with "hello" typed. -/
theorem send_hello_exchange_witness :
    let s : ChatState := { initChatState with msg := "hello" }
    (send s).history = s.history ++ [{ role := Role.user, content := "hello" }] ∧
    (fireReply (send s)).history =
      s.history ++ [{ role := Role.user, content := "hello" },
                    { role := Role.assistant, content := assistantReply "hello" }] ∧
    (∃ a b : String, assistantReply "hello" = a ++ "hello" ++ b) :=
  send_hello_exchange { initChatState with msg := "hello" } rfl rfl

/-- C7: the history is append-only: `send` and the reply callback only
extend it at the end, and typing never touches it; no entry already
present is removed, reordered or modified. -/
theorem history_append_only (s : ChatState) :
    (∃ t, (send s).history = s.history ++ t) ∧
    (∃ t, (fireReply s).history = s.history ++ t) ∧
    (∀ m, (setMsgInput m s).history = s.history) := by
  refine ⟨?_, ?_, fun m => rfl⟩
  · by_cases h : jsTrim s.msg = ""
    · exact ⟨[], by simp [send, h]⟩
    · exact ⟨[{ role := Role.user, content := jsTrim s.msg }], by simp [send, h]⟩
  · cases hp : s.pending with
    | nil => exact ⟨[], by simp [fireReply, hp]⟩
    | cons text rest =>
        exact ⟨[{ role := Role.assistant, content := assistantReply text }],
               by simp [fireReply, hp]⟩

/-- C8: `send` does not enforce mutual exclusion: even while `loading` is
true (a reply still pending), a non-blank submission appends the new user
message to the history rather than rejecting or queueing it. -/
theorem send_no_mutual_exclusion (s : ChatState) (hl : s.loading = true)
    (h : jsTrim s.msg ≠ "") :
    (send s).history = s.history ++ [{ role := Role.user, content := jsTrim s.msg }] := by
  simp [send, h]

/-- Witness for C8: a second submission while the first reply is pending. -/
theorem send_no_mutual_exclusion_witness :
    let s : ChatState := { msg := "status", loading := true,
                           history := [{ role := Role.assistant, content := greeting },
                                       { role := Role.user, content := "hello" }],
                           pending := ["hello"] }
    (send s).history = s.history ++ [{ role := Role.user, content := jsTrim s.msg }] :=
  send_no_mutual_exclusion
    { msg := "status", loading := true,
      history := [{ role := Role.assistant, content := greeting },
                  { role := Role.user, content := "hello" }],
      pending := ["hello"] }
    rfl (by decide)

/-- C10: the history starts as exactly the one assistant greeting, and in
every reachable state of the widget it is non-empty and begins with that
assistant greeting entry. -/
theorem chat_greeting_first (s : ChatState) (hs : Reachable s) :
    initChatState.history = [{ role := Role.assistant, content := greeting }] ∧
    s.history ≠ [] ∧
    s.history.head? = some { role := Role.assistant, content := greeting } := by
  refine ⟨rfl, ?_⟩
  induction hs with
  | init => exact ⟨by simp [initChatState], rfl⟩
  | typing t _ ih => exact ih
  | dosend _ ih =>
      rename_i s' _
      by_cases h : jsTrim s'.msg = ""
      · simpa [send, h] using ih
      · have hh : (send s').history
            = s'.history ++ [{ role := Role.user, content := jsTrim s'.msg }] := by
          simp [send, h]
        refine ⟨?_, ?_⟩
        · rw [hh]; exact fun hc => ih.1 (List.append_eq_nil.mp hc).1
        · rw [hh, head?_append_left _ _ ih.1]; exact ih.2
  | reply _ ih =>
      rename_i s' _
      cases hp : s'.pending with
      | nil => simpa [fireReply, hp] using ih
      | cons text rest =>
          have hh : (fireReply s').history
              = s'.history ++ [{ role := Role.assistant, content := assistantReply text }] := by
            simp [fireReply, hp]
          refine ⟨?_, ?_⟩
          · rw [hh]; exact fun hc => ih.1 (List.append_eq_nil.mp hc).1
          · rw [hh, head?_append_left _ _ ih.1]; exact ih.2

/-- Witness for C10 at the initial state. -/
theorem chat_greeting_first_witness :
    initChatState.history = [{ role := Role.assistant, content := greeting }] ∧
    initChatState.history ≠ [] ∧
    initChatState.history.head? = some { role := Role.assistant, content := greeting } :=
  chat_greeting_first initChatState Reachable.init
